import Mathlib

/-!
# Verification of the Daily Global Intelligence Engine ingestion pipeline

A shallow embedding of the pipeline's data model and operations, translated
from the Python source (`src/`), together with theorems settling the spec's
testable properties: deduplication (src/utils/dedup.py), the processing stage
(src/main.py), the fetch clients (src/utils/rss_fetcher.py,
src/sources/web_sources.py), source-name resolution
(src/utils/source_from_entry.py), tweet extraction (src/sources/twitter.py),
and the batched summarizer (src/llm/github_llm.py).

Modelling conventions:
* Python dicts carrying records become a fixed structure whose fields are
  `Option String` (`none` = key absent); `dict.get(k, d)` becomes `pyGet`.
* Whitespace and string primitives (`strip`, `in`, slicing) are modelled over
  ASCII whitespace, matching the inputs the pipeline handles.
* Network calls are abstracted as oracles mapping the attempt/request number
  to the outcome the remote side produced; everything after the response is
  embedded from the source.
* `hashlib.sha256(...).hexdigest()` is embedded as a full SHA-256 over the
  UTF-8 bytes of the input, on `Nat` with explicit `% 2^32`.
-/

namespace DGIE

/-! ## Python string and dict primitives -/

/-- `dict.get(key, default)`: `none` models an absent key. -/
def pyGet (o : Option String) (d : String) : String := o.getD d

/-- Python truthiness of an optional string value: present and non-empty. -/
def truthy (o : Option String) : Bool :=
  match o with
  | none => false
  | some s => !(s.data.isEmpty)

/-- Python `str` whitespace (`\s`, ASCII range): space, tab, newline,
carriage return, vertical tab, form feed. -/
def isPySpace (c : Char) : Bool :=
  c = ' ' || c = '\t' || c = '\n' || c = '\r' || c = '\x0b' || c = '\x0c'

/-- Python `str.strip()` over ASCII whitespace. -/
def pyStrip (s : String) : String :=
  String.mk (((s.data.dropWhile isPySpace).reverse.dropWhile isPySpace).reverse)

/-- Contiguous-substring scan over char lists (`List.isPrefixOf` at each
position). -/
def listContains (needle : List Char) : List Char → Bool
  | [] => needle.isEmpty
  | c :: rest => needle.isPrefixOf (c :: rest) || listContains needle rest

/-- Python `needle in haystack` substring test. -/
def pyIn (needle haystack : String) : Bool :=
  listContains needle.data haystack.data

/-- Python `s.startswith(pre)`. -/
def pyStartsWith (pre s : String) : Bool := pre.data.isPrefixOf s.data

/-- Python `s[:n]` slicing (by code point, as Python slices `str`). -/
def pySlice (n : Nat) (s : String) : String := String.mk (s.data.take n)

/-- Python `len(s)` (code points). -/
def pyLen (s : String) : Nat := s.data.length

/-! ## UTF-8 encoding (`str.encode("utf-8")`) -/

/-- UTF-8 bytes of one code point. -/
def utf8Char (c : Char) : List Nat :=
  let n := c.toNat
  if n < 128 then [n]
  else if n < 2048 then [192 + n / 64, 128 + n % 64]
  else if n < 65536 then [224 + n / 4096, 128 + (n / 64) % 64, 128 + n % 64]
  else [240 + n / 262144, 128 + (n / 4096) % 64, 128 + (n / 64) % 64, 128 + n % 64]

/-- UTF-8 bytes of a string. -/
def utf8Encode (s : String) : List Nat := s.data.flatMap utf8Char

/-! ## SHA-256 (`hashlib.sha256(...).hexdigest()`)

Standard FIPS 180-4 SHA-256 over a byte list, all words as `Nat` reduced
modulo `2^32`. -/

def w32 (x : Nat) : Nat := x % 4294967296

def rotr (n x : Nat) : Nat := w32 ((x >>> n) ||| (x <<< (32 - n)))

def shaCh (e f g : Nat) : Nat := (e &&& f) ^^^ ((e ^^^ 4294967295) &&& g)

def shaMaj (a b c : Nat) : Nat := (a &&& b) ^^^ (a &&& c) ^^^ (b &&& c)

def bigSig0 (x : Nat) : Nat := rotr 2 x ^^^ rotr 13 x ^^^ rotr 22 x

def bigSig1 (x : Nat) : Nat := rotr 6 x ^^^ rotr 11 x ^^^ rotr 25 x

def smallSig0 (x : Nat) : Nat := rotr 7 x ^^^ rotr 18 x ^^^ (x >>> 3)

def smallSig1 (x : Nat) : Nat := rotr 17 x ^^^ rotr 19 x ^^^ (x >>> 10)

def shaK : List Nat :=
  [1116352408, 1899447441, 3049323471, 3921009573,
   961987163, 1508970993, 2453635748, 2870763221,
   3624381080, 310598401, 607225278, 1426881987,
   1925078388, 2162078206, 2614888103, 3248222580,
   3835390401, 4022224774, 264347078, 604807628,
   770255983, 1249150122, 1555081692, 1996064986,
   2554220882, 2821834349, 2952996808, 3210313671,
   3336571891, 3584528711, 113926993, 338241895,
   666307205, 773529912, 1294757372, 1396182291,
   1695183700, 1986661051, 2177026350, 2456956037,
   2730485921, 2820302411, 3259730800, 3345764771,
   3516065817, 3600352804, 4094571909, 275423344,
   430227734, 506948616, 659060556, 883997877,
   958139571, 1322822218, 1537002063, 1747873779,
   1955562222, 2024104815, 2227730452, 2361852424,
   2428436474, 2756734187, 3204031479, 3329325298]

def shaH0 : List Nat :=
  [1779033703, 3144134277, 1013904242, 2773480762,
   1359893119, 2600822924, 528734635, 1541459225]

/-- `n` big-endian bytes of `v`. -/
def toBytesBE : Nat → Nat → List Nat
  | 0, _ => []
  | n + 1, v => toBytesBE n (v / 256) ++ [v % 256]

/-- SHA-256 padding: append `0x80`, zero bytes to 56 mod 64, then the bit
length as 8 big-endian bytes. -/
def shaPad (msg : List Nat) : List Nat :=
  let len := msg.length
  let zeros := (119 - len % 64) % 64
  msg ++ [128] ++ List.replicate zeros 0 ++ toBytesBE 8 (8 * len)

/-- Split a (padded) byte list into 64-byte blocks; fuel-driven structural
recursion. -/
def toBlocksGo : Nat → List Nat → List (List Nat)
  | 0, _ => []
  | _ + 1, [] => []
  | f + 1, bs => bs.take 64 :: toBlocksGo f (bs.drop 64)

def toBlocks (bs : List Nat) : List (List Nat) := toBlocksGo bs.length bs

/-- Combine each group of 4 bytes into a 32-bit big-endian word. -/
def bytesToWordsGo : Nat → List Nat → List Nat
  | 0, _ => []
  | _ + 1, [] => []
  | f + 1, bs =>
      (bs.getD 0 0 * 16777216 + bs.getD 1 0 * 65536 + bs.getD 2 0 * 256
        + bs.getD 3 0) :: bytesToWordsGo f (bs.drop 4)

def bytesToWords (bs : List Nat) : List Nat := bytesToWordsGo bs.length bs

/-- Extend the 16 message words to 64; the accumulator is kept reversed so
`w[t-2], w[t-7], w[t-15], w[t-16]` sit at reversed indices 1, 6, 14, 15. -/
def extendSchedule : Nat → List Nat → List Nat
  | 0, acc => acc
  | n + 1, acc =>
      extendSchedule n
        (w32 (smallSig1 (acc.getD 1 0) + acc.getD 6 0
              + smallSig0 (acc.getD 14 0) + acc.getD 15 0) :: acc)

def schedule (block : List Nat) : List Nat :=
  (extendSchedule 48 (bytesToWords block).reverse).reverse

/-- One compression round; the state is the list `[a,b,c,d,e,f,g,h]`. -/
def shaRound (st : List Nat) (kw : Nat × Nat) : List Nat :=
  let a := st.getD 0 0
  let b := st.getD 1 0
  let c := st.getD 2 0
  let d := st.getD 3 0
  let e := st.getD 4 0
  let f := st.getD 5 0
  let g := st.getD 6 0
  let h := st.getD 7 0
  let t1 := h + bigSig1 e + shaCh e f g + kw.1 + kw.2
  let t2 := bigSig0 a + shaMaj a b c
  [w32 (t1 + t2), a, b, c, w32 (d + t1), e, f, g]

/-- Compress one block into the running hash value. -/
def shaCompress (hv : List Nat) (block : List Nat) : List Nat :=
  let st := ((schedule block).zip shaK).foldl shaRound hv
  (hv.zip st).map (fun p => w32 (p.1 + p.2))

/-- Lowercase hex digits of `v`, `n` nibbles wide. -/
def toHexGo : Nat → Nat → List Char
  | 0, _ => []
  | n + 1, v =>
      toHexGo n (v / 16)
        ++ [("0123456789abcdef".data.getD (v % 16) '0')]

/-- `hashlib.sha256(bytes).hexdigest()` on a byte list. -/
def sha256hexBytes (msg : List Nat) : String :=
  let hv := (toBlocks (shaPad msg)).foldl shaCompress shaH0
  String.mk (hv.flatMap (toHexGo 8))

/-- `hashlib.sha256(s.encode("utf-8")).hexdigest()`. -/
def sha256hex (s : String) : String := sha256hexBytes (utf8Encode s)

/-! ## The normalized record (`Dict` items flowing through the pipeline) -/

/-- One pipeline record: a Python dict with these (string-valued) keys;
`none` models an absent key.  Numeric sidecar fields of market records do
not participate in any claim and are omitted. -/
structure Item where
  category : Option String := none
  title : Option String := none
  content : Option String := none
  source : Option String := none
  url : Option String := none
  published_at : Option String := none
  summary : Option String := none
  deriving DecidableEq, Repr

/-! ## Dedup index (src/utils/dedup.py) -/

/-- `generate_hash(item)`: SHA-256 hexdigest of `f"{url}|{title}"`
(UTF-8), with `item.get("url", "")` and `item.get("title", "")`. -/
def generate_hash (item : Item) : String :=
  sha256hex (pyGet item.url "" ++ "|" ++ pyGet item.title "")

/-- The loop of `deduplicate_items`: `seen` is the set of hashes of the
already-kept items (the source adds a hash exactly when it keeps the item). -/
def dedupGo (seen : List String) : List Item → List Item
  | [] => []
  | i :: rest =>
      if generate_hash i ∈ seen then dedupGo seen rest
      else i :: dedupGo (generate_hash i :: seen) rest

/-- `deduplicate_items(items)`: single pass keeping the first item of each
identity hash. -/
def deduplicate_items (items : List Item) : List Item := dedupGo [] items

/-! ## Processing stage (src/main.py `process_data`) -/

/-- A record is valid iff `item.get("title")` and `item.get("url")` are both
truthy (the filter of `process_data`, step 2). -/
def validItem (i : Item) : Bool := truthy i.title && truthy i.url

/-- The record-level flow of `process_data` before summarization: the source
first deduplicates (step 1) and only then filters out records with empty
`title`/`url` (step 2). -/
def process_data_records (items : List Item) : List Item :=
  (deduplicate_items items).filter validItem

/-- The record flow the spec describes ("invalid records are dropped before
deduplication"), written from the spec's words for comparison with
`process_data_records`. -/
def process_data_records_specOrder (items : List Item) : List Item :=
  deduplicate_items (items.filter validItem)

/-! ## Feed entries (feedparser dicts) -/

/-- The `source` element a feedparser entry may carry: either a (non-empty)
mapping whose `title` key holds the publisher name (`none` = key absent or
`None`), or a bare string. -/
inductive PySourceElem where
  | dict (t : Option String)
  | str (s : String)
  deriving DecidableEq, Repr

/-- One parsed feed entry (the keys the pipeline reads). -/
structure Entry where
  title : Option String := none
  link : Option String := none
  published : Option String := none
  summary : Option String := none
  source : Option PySourceElem := none
  deriving DecidableEq, Repr

/-! ## Source resolver (src/utils/source_from_entry.py `get_entry_source`) -/

/-- The separator loop of `get_entry_source`: for each separator in
`[" - ", " – ", " — "]`, if it occurs in the title, split on it and take the
last segment stripped; accept it only if non-empty, shorter than 80
characters, and not containing `"http"`; otherwise try the next separator. -/
def sepCandidate (title : String) : Option String :=
  go [" - ", " – ", " — "]
where
  go : List String → Option String
    | [] => none
    | sep :: rest =>
        if pyIn sep title then
          let parts := title.splitOn sep
          if parts.length ≥ 2 then
            let candidate := pyStrip (parts.getLast?.getD "")
            if candidate ≠ "" && pyLen candidate < 80 && !pyIn "http" candidate
            then some candidate
            else go rest
          else go rest
        else go rest

/-- `get_entry_source(entry, rss_url, fallback)`: only engages for
`news.google.com` URLs; returns `fallback` for an empty title; then tries the
entry's `source` element, then the trailing-separator split of the title. -/
def get_entry_source (entry : Entry) (rss_url : String) (fallback : String) :
    String :=
  if !pyIn "news.google.com" rss_url then fallback
  else
    let title := pyStrip (pyGet entry.title "")
    if title = "" then fallback
    else
      let fromTitle := (sepCandidate title).getD fallback
      match entry.source with
      | some (.dict t) =>
          if truthy t then
            let r := pyStrip (pyGet t "")
            if r = "" then fallback else r
          else fromTitle
      | some (.str s) => if pyStrip s ≠ "" then pyStrip s else fromTitle
      | none => fromTitle

/-! ## Tweet extractor (src/sources/twitter.py `parse_tweet_entry`)

The wall-clock recency test `is_today(published)` is abstracted as an oracle
`isToday`, and the display date (`format_date_for_display(now)` /
`now.strftime`) as `todayStr`; everything else is embedded from the source.
Note the returned dict clamps `title` to 200 characters but stores `content`
unclamped. -/
def parse_tweet_entry (isToday : String → Bool) (todayStr : String)
    (entry : Entry) (username : String) : Option Item :=
  let title := pyStrip (pyGet entry.title "")
  let link := pyGet entry.link ""
  let published := pyGet entry.published ""
  if !isToday published then none
  else
    let content :=
      if pyIn ":" title then
        pyStrip (String.intercalate ":" ((title.splitOn ":").drop 1))
      else title
    let uname := username.toLower
    let cs :=
      if pyIn "elon" uname || pyIn "musk" uname then
        ("马斯克", "X / Elon Musk")
      else if pyIn "trump" uname || pyIn "donald" uname then
        ("特朗普", "X / Donald Trump")
      else ("Twitter", "X / " ++ username)
    some
      { category := some cs.1
        title := some (if pyLen content > 200 then pySlice 200 content
                       else content)
        content := some content
        source := some cs.2
        url := some link
        published_at := some todayStr }

/-! ## Google News extractor (src/utils/google_rss.py `fetch_google_news_rss`)

Only the per-entry record construction loop is embedded (the part that shapes
records): the feed is given as a parsed entry list, `is_today` as an oracle,
and `format_date_for_display(parse_date(published) or now)` as the
`displayDate` oracle. -/
def entry_matches_filter (entry : Entry) (keywords_filter : Option (List String)) :
    Bool :=
  match keywords_filter with
  | none => true
  | some [] => true
  | some kws =>
      let text := (pyGet entry.title "").toLower ++ " "
        ++ (pyGet entry.summary "").toLower
      kws.any (fun kw => if pyStrip kw ≠ "" then pyIn kw.toLower text else false)

/-- The entry loop of `fetch_google_news_rss`: walks `entries[:max_items*2]`,
stops at `max_items`, applies the keyword filter and recency check, and
builds records with `title[:200]` and `content[:500]`. -/
def google_rss_items (isToday : String → Bool) (displayDate : String → String)
    (url : String) (keywords_filter : Option (List String)) (category : String)
    (max_items : Nat) (entries : List Entry) : List Item :=
  go (entries.take (max_items * 2)) []
where
  go : List Entry → List Item → List Item
    | [], acc => acc.reverse
    | entry :: rest, acc =>
        if acc.length ≥ max_items then acc.reverse
        else if !entry_matches_filter entry keywords_filter then go rest acc
        else
          let published := pyGet entry.published ""
          if !isToday published then go rest acc
          else
            let title := pyStrip (pyGet entry.title "")
            let link := pyGet entry.link ""
            let summ := pyStrip (pyGet entry.summary "")
            let content := if summ ≠ "" then summ else title
            let source_name := get_entry_source entry url "Google News"
            go rest
              ({ category := some category
                 title := some (if pyLen title > 200 then pySlice 200 title
                                else title)
                 content := some (if pyLen content > 500 then pySlice 500 content
                                  else content)
                 source := some source_name
                 url := some link
                 published_at := some (displayDate published) } :: acc)

/-! ## Meta-refresh extraction (src/sources/web_sources.py
`_extract_meta_refresh_url`)

The regex
`<meta\s+http-equiv=["\']?refresh["\']?\s+content=["\']?\d+\s*;\s*url=([^"\'>\s]+)`
(case-insensitive) is embedded as a deterministic scanner.  Every greedy
piece of the pattern is followed by a piece whose first character is
disjoint from it (digits vs separators, whitespace vs letters), so greedy
matching without backtracking coincides with the regex. -/

/-- Case-insensitive literal match; returns the remaining input. -/
def matchLitCI : List Char → List Char → Option (List Char)
  | [], cs => some cs
  | _ :: _, [] => none
  | l :: ls, c :: cs =>
      if l.toLower = c.toLower then matchLitCI ls cs else none

/-- `\s+`. -/
def matchWS1 (cs : List Char) : Option (List Char) :=
  match cs with
  | [] => none
  | c :: rest => if isPySpace c then some (rest.dropWhile isPySpace) else none

/-- `["\']?`. -/
def matchOptQuote (cs : List Char) : List Char :=
  match cs with
  | '"' :: rest => rest
  | '\'' :: rest => rest
  | _ => cs

/-- `\d+`. -/
def matchDigits1 (cs : List Char) : Option (List Char) :=
  match cs with
  | [] => none
  | c :: rest => if c.isDigit then some (rest.dropWhile Char.isDigit) else none

/-- A character the capture group `[^"\'>\s]+` excludes. -/
def isCaptureStop (c : Char) : Bool :=
  c = '"' || c = '\'' || c = '>' || isPySpace c

/-- Try the whole refresh pattern at the head of `cs`; on success return the
captured URL characters. -/
def tryRefreshAt (cs : List Char) : Option (List Char) := do
  let cs ← matchLitCI "<meta".data cs
  let cs ← matchWS1 cs
  let cs ← matchLitCI "http-equiv=".data cs
  let cs := matchOptQuote cs
  let cs ← matchLitCI "refresh".data cs
  let cs := matchOptQuote cs
  let cs ← matchWS1 cs
  let cs ← matchLitCI "content=".data cs
  let cs := matchOptQuote cs
  let cs ← matchDigits1 cs
  let cs := cs.dropWhile isPySpace
  let cs ← matchLitCI ";".data cs
  let cs := cs.dropWhile isPySpace
  let cs ← matchLitCI "url=".data cs
  let cap := cs.takeWhile (fun c => !isCaptureStop c)
  if cap.isEmpty then none else some cap

/-- `re.search`: first position where the pattern matches. -/
def findRefresh : List Char → Option (List Char)
  | [] => none
  | c :: rest =>
      match tryRefreshAt (c :: rest) with
      | some cap => some cap
      | none => findRefresh rest

/-- Model of `urllib.parse.urljoin` for the reference shapes this pipeline
produces: absolute URLs pass through, `//`-references adopt the base scheme,
rooted paths replace the base path, and other references replace the last
path segment.  (No dot-segment normalization.) -/
def urljoin (base target : String) : String :=
  let schemeSplit := base.splitOn "://"
  let scheme := (schemeSplit.head?).getD ""
  let rest := String.intercalate "://" (schemeSplit.drop 1)
  let netloc := ((rest.splitOn "/").head?).getD ""
  if pyStartsWith "http://" target || pyStartsWith "https://" target then target
  else if pyStartsWith "//" target then scheme ++ ":" ++ target
  else if pyStartsWith "/" target then scheme ++ "://" ++ netloc ++ target
  else if target = "" then base
  else
    let keep := String.mk ((base.data.reverse.dropWhile (fun c => c ≠ '/')).reverse)
    if keep = "" then base ++ "/" ++ target else keep ++ target

/-- `_extract_meta_refresh_url(html, current_url)`. -/
def extract_meta_refresh_url (html current_url : String) : Option String :=
  if html = "" || current_url = "" then none
  else
    match findRefresh html.data with
    | none => none
    | some cap =>
        let target := pyStrip (String.mk cap)
        if pyStartsWith "http://" target || pyStartsWith "https://" target then
          some target
        else some (urljoin current_url target)

/-! ## Feed fetch client (src/utils/rss_fetcher.py `fetch_rss`)

The network is an oracle from the 1-based attempt number to the outcome of
`requests.get`: a transport error / exception, or a response with a status
code and body.  `feedparser.parse(response.content)` is represented by the
body itself.  The result pairs the number of attempts actually issued with
the outcome. -/

inductive FetchOutcome where
  | err
  | ok (status : Nat) (body : String)
  deriving DecidableEq, Repr

/-- The retry loop of `fetch_rss`: a 429 response returns `None` at once;
`raise_for_status` turns any status ≥ 400 into a retried exception; other
responses succeed.  `fuel` is the number of attempts still allowed. -/
def fetchRssGo (o : Nat → FetchOutcome) (attempt : Nat) :
    Nat → Nat × Option String
  | 0 => (attempt - 1, none)
  | fuel + 1 =>
      match o attempt with
      | .err => fetchRssGo o (attempt + 1) fuel
      | .ok s b =>
          if s = 429 then (attempt, none)
          else if s ≥ 400 then fetchRssGo o (attempt + 1) fuel
          else (attempt, some b)

/-- `fetch_rss(url, ..., max_retries, ...)`: `(attempts issued, result)`. -/
def fetch_rss (o : Nat → FetchOutcome) (max_retries : Nat) :
    Nat × Option String :=
  fetchRssGo o 1 max_retries

/-! ## Page fetch client (src/sources/web_sources.py `fetch_page`)

The oracle maps a global request counter and the requested URL to the
outcome of `session.get` (which already followed HTTP redirects): an
exception, or a response with status, final URL (`resp.url`) and body
(`resp.text`). -/

inductive PageOutcome where
  | err
  | ok (status : Nat) (respUrl : String) (body : String)
  deriving DecidableEq, Repr

def MAX_REDIRECT_HOPS : Nat := 8

/-- One attempt of `fetch_page`: the meta-refresh redirect loop
(`for hop in range(MAX_REDIRECT_HOPS + 1)`).  Returns the new request
counter and either the attempt's exception (any `raise_for_status` failure
or transport error) or the `html` the attempt returns.  `fuel` is the number
of loop iterations left; on exhaustion the last fetched `html` is
returned. -/
def pageAttempt (o : Nat → String → PageOutcome) (cnt : Nat) (current : String)
    (html : Option String) : Nat → Nat × Except Unit (Option String)
  | 0 => (cnt, .ok html)
  | fuel + 1 =>
      match o cnt current with
      | .err => (cnt + 1, .error ())
      | .ok s u b =>
          if s ≥ 400 then (cnt + 1, .error ())
          else if b = "" || pyLen b < 100 then (cnt + 1, .ok (some b))
          else
            match extract_meta_refresh_url b u with
            | none => (cnt + 1, .ok (some b))
            | some next =>
                let nextFull := if pyStartsWith "/" next then urljoin u next
                                else next
                if nextFull = u then (cnt + 1, .ok (some b))
                else pageAttempt o (cnt + 1) nextFull (some b) fuel

/-- The retry loop of `fetch_page`; `fuel` is the number of attempts still
allowed.  Returns `(attempts issued, final request counter, result)`. -/
def fetchPageGo (o : Nat → String → PageOutcome) (url : String) (attempt cnt : Nat) :
    Nat → Nat × Nat × Option String
  | 0 => (attempt - 1, cnt, none)
  | fuel + 1 =>
      match pageAttempt o cnt url none (MAX_REDIRECT_HOPS + 1) with
      | (cnt', .ok h) => (attempt, cnt', h)
      | (cnt', .error _) => fetchPageGo o url (attempt + 1) cnt' fuel

/-- `fetch_page(url, timeout)` with `retries` attempts (default
`WEB_REQUEST_RETRIES = 5`).  Note the source applies the same retry
treatment to every failure status, 429 included: there is no rate-limit
short-circuit in this variant. -/
def fetch_page (o : Nat → String → PageOutcome) (retries : Nat) (url : String) :
    Nat × Nat × Option String :=
  fetchPageGo o url 1 0 retries

/-! ## Summarization batcher (src/llm/github_llm.py)

External generation calls are abstracted to the response text they finally
produce (`none` for any of the failure paths: 401/400/429 exhaustion,
transport error, empty content); everything from the response onward is
embedded from the source. -/

/-- `map` carrying the running index (Python `enumerate`). -/
def mapWithIdx (f : Nat → α → β) : Nat → List α → List β
  | _, [] => []
  | i, x :: xs => f i x :: mapWithIdx f (i + 1) xs

/-- The truncation fallback used whenever generation yields nothing:
`orig[:200] + ("..." if len(orig) > 200 else "")` with
`orig = item.get("content", item.get("title", ""))`. -/
def fallbackText (item : Item) : String :=
  pyGet item.content (pyGet item.title "")

def fallbackTrunc (item : Item) : String :=
  let orig := fallbackText item
  pySlice 200 orig ++ (if pyLen orig > 200 then "..." else "")

/-- `summarize_with_github_models` given the response content the call chain
produced: the stripped content when non-empty, else `None`. -/
def summarize_with_github_models (resp : Option String) : Option String :=
  match resp with
  | none => none
  | some r => let s := pyStrip r; if s = "" then none else some s

/-- `summarize_item(item)`: attach the generated summary, or the truncation
fallback when generation failed. -/
def summarize_item (resp : Option String) (item : Item) : Item :=
  match summarize_with_github_models resp with
  | some s => { item with summary := some s }
  | none => { item with summary := some (fallbackTrunc item) }

/-- `summarize_batch(items, delay)`: one generation call per item. -/
def summarize_batch (itemApi : Nat → Option String) (items : List Item) :
    List Item :=
  mapWithIdx (fun i it => summarize_item (itemApi i) it) 0 items

/-- `^\d+[\.．)\s]+`-class separator characters. -/
def isNumSep (c : Char) : Bool :=
  c = '.' || c = '．' || c = ')' || isPySpace c

/-- `re.sub(r"^\d+[\.．)\s]+", "", ln)`: digits are disjoint from the
separator class, so the greedy maximal-run strip is exactly the regex. -/
def stripNumPrefix (ln : String) : String :=
  match ln.data with
  | [] => ln
  | c :: _ =>
      if c.isDigit then
        let rest := ln.data.dropWhile Char.isDigit
        match rest with
        | [] => ln
        | c2 :: _ =>
            if isNumSep c2 then String.mk (rest.dropWhile isNumSep) else ln
      else ln

/-- Lookahead `(?=\n\d+[\.．)\s]+|\Z)` of the block regex: holds at a list
position iff it is the end, or a newline followed by digits and a
separator. -/
def blockBoundary : List Char → Bool
  | [] => true
  | '\n' :: r =>
      let ds := r.takeWhile Char.isDigit
      if ds.isEmpty then false
      else
        match r.dropWhile Char.isDigit with
        | [] => false
        | c :: _ => isNumSep c
  | _ => false

/-- Lazy capture `(.+?)` up to the earliest boundary (with `re.DOTALL` the
dot crosses newlines). -/
def captureTo : List Char → List Char
  | [] => []
  | c :: rest => if blockBoundary rest then [c] else c :: captureTo rest

/-- Try the anchored block pattern `^{i}[\.．)\s]+\s*(.+?)(?=...)` at the
head of `cs` (which must be a line start).  When the greedy separator run
reaches the end of the input the engine backtracks one separator so the
capture is non-empty, matching the regex. -/
def tryBlockAt (i : Nat) (cs : List Char) : Option (List Char) :=
  let ds := (toString i).data
  if ds.isPrefixOf cs then
    let rest := cs.drop ds.length
    let seps := rest.takeWhile isNumSep
    if seps.isEmpty then none
    else
      let body := rest.drop seps.length
      match body with
      | _ :: _ => some (captureTo body)
      | [] => if seps.length ≥ 2 then some [seps.getLastD ' '] else none
  else none

/-- `re.MULTILINE` search for the numbered block: try the pattern at every
line start, earliest first. -/
def findBlockGo (i : Nat) : List Char → Bool → Option (List Char)
  | [], _ => none
  | c :: rest, atStart =>
      if atStart then
        match tryBlockAt i (c :: rest) with
        | some cap => some cap
        | none => findBlockGo i rest (c = '\n')
      else findBlockGo i rest (c = '\n')

/-- The second parsing pass of `_summarize_one_chunk` for index `i`:
`s = m.group(1).strip().replace("\n", " ").strip()`, kept only when
non-empty. -/
def secondPass (raw : String) (i : Nat) : Option String :=
  match findBlockGo i raw.data true with
  | none => none
  | some cap =>
      let s := pyStrip ((pyStrip (String.mk cap)).replace "\n" " ")
      if s = "" then none else some s

/-- `_summarize_one_chunk(chunk, start_index)` given the response text of its
one generation call: first pass strips the `N.`-style prefix from each
non-empty line in order; if fewer than `n` summaries were recovered, the
second regex pass fills the holes.  Returns a list exactly as long as the
chunk. -/
def summarize_one_chunk (raw : Option String) (chunk : List Item) :
    List (Option String) :=
  let n := chunk.length
  match raw with
  | none => List.replicate n none
  | some raw =>
      let lns := ((raw.splitOn "\n").map pyStrip).filter (fun l => l ≠ "")
      let pass1 := (List.range n).map (fun j =>
        match lns[j]? with
        | none => none
        | some ln =>
            let t := pyStrip (stripNumPrefix ln)
            if t ≠ "" && pyLen t > 2 then some (pySlice 300 t) else none)
      if (pass1.filter Option.isSome).length < n then
        mapWithIdx (fun idx s =>
          match s with
          | some v => some v
          | none =>
              match secondPass raw (idx + 1) with
              | some s2 => some (pySlice 300 s2)
              | none => none) 0 pass1
      else pass1

def BATCH_CHUNK_SIZE : Nat := 25

/-- The chunk loop of `summarize_batch_unified`
(`for start in range(0, len(items), chunk_size)`): the `all_summaries`
array, assembled chunk by chunk.  `ci` numbers the chunks for the oracle;
`fuel` bounds the structural recursion. -/
def unifiedSummaries (chunkApi : Nat → Option String) (ci : Nat) :
    Nat → List Item → List (Option String)
  | 0, _ => []
  | _ + 1, [] => []
  | fuel + 1, xs =>
      summarize_one_chunk (chunkApi ci) (xs.take BATCH_CHUNK_SIZE)
        ++ unifiedSummaries chunkApi (ci + 1) fuel (xs.drop BATCH_CHUNK_SIZE)

/-- Python falsiness of a summary slot (`if not s`): absent or empty. -/
def slotFailed (s : Option String) : Bool :=
  match s with
  | none => true
  | some v => v = ""

/-- `summarize_batch_unified(items)`: chunked generation; if every slot
failed, fall back to the per-item `summarize_batch`; otherwise write each
slot (or the truncation fallback) into its record's `summary`. -/
def summarize_batch_unified (chunkApi : Nat → Option String)
    (itemApi : Nat → Option String) (items : List Item) : List Item :=
  if items.isEmpty then items
  else
    let all_summaries := unifiedSummaries chunkApi 0 items.length items
    let failed := (all_summaries.filter slotFailed).length
    if failed = items.length then summarize_batch itemApi items
    else
      mapWithIdx (fun idx item =>
        let s : Option String :=
          match all_summaries[idx]? with
          | some (some v) => if v = "" then none else some v
          | _ => none
        match s with
        | some v => { item with summary := some v }
        | none => { item with summary := some (fallbackTrunc item) }) 0 items

/-! ## Collection orchestrator (src/main.py `collect_all_data`)

Every group's fetch+extract pipeline is abstracted to the record list it
contributed.  Sequential groups sit behind `try/except`, so a failing group
is `none` and contributes nothing; the two background workers (web pages and
Google News RSS) are the result buffers read after `join` (an empty list
when the thread failed to start).  The merge on the last line of the source
is `web_result_list + google_rss_result_list + twitter_rss_items +
all_items`. -/

structure GroupResults where
  web : List Item := []
  google : List Item := []
  energy : Option (List Item) := none
  cm : Option (List Item) := none
  ai : Option (List Item) := none
  space : Option (List Item) := none
  fed : Option (List Item) := none
  stocks : Option (List Item) := none
  rssExtra : Option (List Item) := none
  twitter : Option (List Item) := none
  deriving DecidableEq, Repr

/-- `collect_all_data()`: the sequential accumulation into `all_items`
(steps 3–9), the separately held twitter RSS list (step 10), and the final
merge placing the background buffers first. -/
def collect_all_data (g : GroupResults) : List Item :=
  let all : List Item := []
  let all := all ++ g.energy.getD []
  let all := all ++ g.cm.getD []
  let all := all ++ g.ai.getD []
  let all := all ++ g.space.getD []
  let all := all ++ g.fed.getD []
  let all := all ++ g.stocks.getD []
  let all := all ++ g.rssExtra.getD []
  let twitter_rss_items := g.twitter.getD []
  g.web ++ g.google ++ twitter_rss_items ++ all

/-- The merged sequence the spec's ordering guarantee describes (sequential
groups first in configured order, then background workers in join order),
written from the spec's words for comparison with `collect_all_data`. -/
def collect_all_data_specOrder (g : GroupResults) : List Item :=
  g.energy.getD [] ++ g.cm.getD [] ++ g.ai.getD [] ++ g.space.getD []
    ++ g.fed.getD [] ++ g.stocks.getD [] ++ g.rssExtra.getD []
    ++ g.twitter.getD [] ++ g.web ++ g.google

/-! ## Concrete fixtures used by counterexamples and witnesses -/

/-- A short way to build a record with a given title. -/
def mkTitled (t : String) : Item := { title := some t, url := some ("https://e/" ++ t) }

/-- Two records agreeing on `url`/`title` but with different `content`. -/
def sampleA : Item := { title := some "t", url := some "https://e/1", content := some "A" }

def sampleB : Item := { title := some "t", url := some "https://e/1", content := some "B" }

/-- An invalid record (empty title) whose identity string `url + "|" + title`
equals that of the valid record `pipeVal`: `"u|t" + "|" + "" = "u|t|"` and
`"u" + "|" + "t|" = "u|t|"`. -/
def pipeInv : Item := { title := some "", url := some "u|t" }

def pipeVal : Item := { title := some "t|", url := some "u" }

/-- Distinct `(url, title)` pairs whose identity strings coincide:
`"a|b" + "|" + "c" = "a" + "|" + "b|c" = "a|b|c"`. -/
def collideA : Item := { url := some "a|b", title := some "c" }

def collideB : Item := { url := some "a", title := some "b|c" }

/-- A tweet entry whose text is 501 characters long. -/
def longTweetEntry : Entry :=
  { title := some (String.mk (List.replicate 501 'a'))
    link := some "https://x/status/9"
    published := some "2026-10-12" }

/-- A page body of length ≥ 100 whose meta-refresh directive targets the page
serving it (`https://x/a`). -/
def selfRefreshHtml : String :=
  "<meta http-equiv=\"refresh\" content=\"0; url=https://x/a\"> padding padding padding padding padding padding"

/-- An oracle that always serves `selfRefreshHtml` from `https://x/a`. -/
def selfRefreshOracle : Nat → String → PageOutcome :=
  fun _ _ => .ok 200 "https://x/a" selfRefreshHtml

/-- An oracle whose every response is HTTP 429. -/
def oracle429 : Nat → String → PageOutcome :=
  fun _ _ => .ok 429 "https://e" "rate limited"

/-- Group results with one distinct record per group. -/
def sampleGroups : GroupResults :=
  { web := [mkTitled "w"], google := [mkTitled "g"]
    energy := some [mkTitled "e"], cm := some [mkTitled "c"]
    ai := some [mkTitled "a"], space := some [mkTitled "s"]
    fed := some [mkTitled "f"], stocks := some [mkTitled "k"]
    rssExtra := some [mkTitled "r"], twitter := some [mkTitled "x"] }

/-- An aggregator entry with an embedded source field needing a strip. -/
def entryWithSourceField : Entry :=
  { title := some "X - Y", source := some (.dict (some " Reuters ")) }

/-- An aggregator entry with a source field but an empty title. -/
def entryEmptyTitleWithSource : Entry :=
  { title := some "", source := some (.dict (some "Reuters")) }

/-- An entry whose title only yields a separator candidate. -/
def entryPlainSep : Entry := { title := some "A - B" }

/-- An entry whose title strips to empty. -/
def entrySpaceTitle : Entry := { title := some " " }

/-- A record whose `content` key is present but empty. -/
def emptyContentItem : Item :=
  { title := some "t", url := some "https://e/9", content := some "" }

/-- A record with non-empty content. -/
def goodContentItem : Item :=
  { title := some "t", url := some "https://e/8", content := some "hi" }

/-! # Theorems -/

/-! ## Dedup index lemmas -/

theorem dedupGo_sublist (seen : List String) (l : List Item) :
    (dedupGo seen l).Sublist l := by
  induction l generalizing seen with
  | nil => simp [dedupGo]
  | cons i rest ih =>
      simp only [dedupGo]
      split
      · exact (ih seen).cons i
      · exact (ih _).cons₂ i

theorem dedupGo_dedupGo (l : List Item) :
    ∀ seen, dedupGo seen (dedupGo seen l) = dedupGo seen l := by
  induction l with
  | nil => intro seen; rfl
  | cons i rest ih =>
      intro seen
      by_cases h : generate_hash i ∈ seen
      · simp only [dedupGo, if_pos h]
        exact ih seen
      · simp only [dedupGo, if_neg h]
        rw [ih (generate_hash i :: seen)]

/-- Every element kept by the dedup pass has a hash outside `seen` and is the
first element of the input with its hash. -/
theorem dedupGo_firstOcc (l : List Item) :
    ∀ seen, ∀ a ∈ dedupGo seen l, generate_hash a ∉ seen ∧
      ∃ pre post, l = pre ++ a :: post ∧
        ∀ p ∈ pre, generate_hash p ≠ generate_hash a := by
  induction l with
  | nil => intro seen a ha; simp [dedupGo] at ha
  | cons i rest ih =>
      intro seen a ha
      simp only [dedupGo] at ha
      by_cases h : generate_hash i ∈ seen
      · rw [if_pos h] at ha
        obtain ⟨hnot, pre, post, hsplit, hpre⟩ := ih seen a ha
        refine ⟨hnot, i :: pre, post, by rw [hsplit]; rfl, ?_⟩
        intro p hp
        rcases List.mem_cons.mp hp with rfl | hp'
        · intro heq; exact hnot (heq ▸ h)
        · exact hpre p hp'
      · rw [if_neg h] at ha
        rcases List.mem_cons.mp ha with rfl | ha'
        · exact ⟨h, [], rest, rfl, by intro p hp; simp at hp⟩
        · obtain ⟨hnot, pre, post, hsplit, hpre⟩ :=
            ih (generate_hash i :: seen) a ha'
          have hni : generate_hash a ≠ generate_hash i := by
            intro heq; exact hnot (by rw [heq]; exact List.mem_cons_self _ _)
          refine ⟨fun hs => hnot (List.mem_cons_of_mem _ hs),
            i :: pre, post, by rw [hsplit]; rfl, ?_⟩
          intro p hp
          rcases List.mem_cons.mp hp with rfl | hp'
          · exact fun heq => hni heq.symm
          · exact hpre p hp'

/-! ## C4 -/

/-- C4: deduplication is idempotent, its output is a subsequence of its
input, and each kept record is the first occurrence of its identity (so the
relative order of first occurrences is preserved). -/
theorem c4_dedup_idempotent_sublist_firstOcc (x : List Item) :
    deduplicate_items (deduplicate_items x) = deduplicate_items x ∧
    (deduplicate_items x).Sublist x ∧
    ∀ a ∈ deduplicate_items x, ∃ pre post, x = pre ++ a :: post ∧
      ∀ p ∈ pre, generate_hash p ≠ generate_hash a := by
  refine ⟨dedupGo_dedupGo x [], dedupGo_sublist [] x, ?_⟩
  intro a ha
  exact (dedupGo_firstOcc x [] a ha).2

theorem c4_witness :
    deduplicate_items (deduplicate_items [sampleA]) =
      deduplicate_items [sampleA] ∧
    ∃ pre post, [sampleA] = pre ++ sampleA :: post ∧
      ∀ p ∈ pre, generate_hash p ≠ generate_hash sampleA :=
  ⟨(c4_dedup_idempotent_sublist_firstOcc [sampleA]).1,
   (c4_dedup_idempotent_sublist_firstOcc [sampleA]).2.2 sampleA
     (by simp [deduplicate_items, dedupGo])⟩

/-! ## C5 -/

/-- C5: the identity hash is a pure function of the `url` and `title` fields:
records agreeing on those two fields always hash identically — hence always
collide in a dedup pass — whatever their other fields hold. -/
theorem c5_hash_pure_of_url_title (i1 i2 : Item)
    (hu : i1.url = i2.url) (ht : i1.title = i2.title) :
    generate_hash i1 = generate_hash i2 ∧
    deduplicate_items [i1, i2] = [i1] := by
  have hh : generate_hash i1 = generate_hash i2 := by
    unfold generate_hash
    rw [hu, ht]
  refine ⟨hh, ?_⟩
  simp only [deduplicate_items, dedupGo]
  rw [if_neg (List.not_mem_nil _), if_pos (by rw [← hh]; exact List.mem_cons_self _ _)]

theorem c5_witness :
    generate_hash sampleA = generate_hash sampleB ∧
    deduplicate_items [sampleA, sampleB] = [sampleA] :=
  c5_hash_pure_of_url_title sampleA sampleB rfl rfl

/-! ## C10 -/

/-- C10: the identity hash is not injective on `(url, title)` pairs, because
it hashes the concatenation `url + "|" + title`: `collideA` and `collideB`
have different `url` fields but identical identities, so deduplication drops
`collideB` although it is not a field-wise duplicate of `collideA`. -/
theorem c10_hash_concatenation_collision :
    collideA.url ≠ collideB.url ∧
    generate_hash collideA = generate_hash collideB ∧
    deduplicate_items [collideA, collideB] = [collideA] := by
  have hh : generate_hash collideA = generate_hash collideB := rfl
  refine ⟨by decide, hh, ?_⟩
  simp only [deduplicate_items, dedupGo]
  rw [if_neg (List.not_mem_nil _), if_pos (by rw [← hh]; exact List.mem_cons_self _ _)]

/-! ## C3 -/

/-- C3 counterexample: in `process_data` the dedup pass runs first, so an
invalid record (`pipeInv`, empty title) reaches the dedup index; here it
collides with the valid `pipeVal` and knocks it out, leaving nothing — had
invalid records been dropped before deduplication, `pipeVal` would have
survived. -/
theorem c3_counterexample_invalid_reaches_dedup :
    validItem pipeInv = false ∧ validItem pipeVal = true ∧
    process_data_records [pipeInv, pipeVal] = [] ∧
    process_data_records_specOrder [pipeInv, pipeVal] = [pipeVal] := by
  have hh : generate_hash pipeInv = generate_hash pipeVal := rfl
  refine ⟨by decide, by decide, ?_, ?_⟩
  · simp only [process_data_records, deduplicate_items, dedupGo]
    rw [if_neg (List.not_mem_nil _),
      if_pos (by rw [← hh]; exact List.mem_cons_self _ _)]
    decide
  · simp only [process_data_records_specOrder]
    have : [pipeInv, pipeVal].filter validItem = [pipeVal] := by decide
    rw [this]
    simp [deduplicate_items, dedupGo]

/-- C3 amended: invalid records are dropped only after the deduplication
pass: every record in the output of the processing stage's record flow is
valid, and that output is a subsequence of the dedup output (dedup itself
sees the raw input, invalid records included). -/
theorem c3_valid_filtered_after_dedup (items : List Item) :
    (∀ i ∈ process_data_records items, validItem i = true) ∧
    (process_data_records items).Sublist (deduplicate_items items) := by
  constructor
  · intro i hi
    exact (List.mem_filter.mp hi).2
  · exact List.filter_sublist _

theorem c3_witness :
    (∀ i ∈ process_data_records [pipeVal], validItem i = true) ∧
    (process_data_records [pipeVal]).Sublist (deduplicate_items [pipeVal]) :=
  c3_valid_filtered_after_dedup [pipeVal]

/-! ## C8 -/

/-- C8 counterexample: with one distinct record per source group, the merged
sequence does not put the sequential groups first — the background buffers
(web pages, then Google News) come first, then the twitter RSS group, then
the sequential groups. -/
theorem c8_counterexample_merge_order :
    collect_all_data sampleGroups ≠ collect_all_data_specOrder sampleGroups ∧
    collect_all_data sampleGroups =
      [mkTitled "w", mkTitled "g", mkTitled "x", mkTitled "e", mkTitled "c",
       mkTitled "a", mkTitled "s", mkTitled "f", mkTitled "k", mkTitled "r"] := by
  constructor
  · decide
  · decide

/-- C8 amended: the merged sequence of one collection cycle places the
background workers' buffers first (web pages, then Google News, in join
order), then the twitter RSS group, and only then the sequential groups in
their configured order (energy, commodities/military, AI, space, fed,
stocks, extra RSS). -/
theorem c8_merge_order_amended (g : GroupResults) :
    collect_all_data g =
      g.web ++ g.google ++ g.twitter.getD [] ++
        (g.energy.getD [] ++ g.cm.getD [] ++ g.ai.getD [] ++ g.space.getD []
          ++ g.fed.getD [] ++ g.stocks.getD [] ++ g.rssExtra.getD []) := by
  simp [collect_all_data]


/-! ## C9 -/

/-- C9 counterexample: an aggregator entry carrying a non-empty embedded
source field (`Reuters`) but an empty title gets `fallbackName` back, not the
source field's value — the empty-title early return precedes the source-field
lookup. -/
theorem c9_counterexample_empty_title_ignores_source :
    entryEmptyTitleWithSource.source = some (.dict (some "Reuters")) ∧
    get_entry_source entryEmptyTitleWithSource
      "https://news.google.com/rss" "Google News" = "Google News" := by
  constructor
  · rfl
  · decide

/-- C9 amended: `get_entry_source` returns `fallbackName` unchanged for
non-aggregator feeds; for aggregator feeds whose entry has a non-empty
(stripped) title it returns, in order, the stripped embedded source-field
value when that is non-empty, else the trailing-separator candidate from the
title, else `fallbackName`; an entry whose own title strips to empty returns
`fallbackName` regardless of its source field. -/
theorem c9_get_entry_source_amended (entry : Entry) (u fb : String) :
    (pyIn "news.google.com" u = false → get_entry_source entry u fb = fb) ∧
    (pyStrip (pyGet entry.title "") = "" → get_entry_source entry u fb = fb) ∧
    (∀ t, pyIn "news.google.com" u = true →
      pyStrip (pyGet entry.title "") ≠ "" →
      entry.source = some (.dict (some t)) → t ≠ "" → pyStrip t ≠ "" →
      get_entry_source entry u fb = pyStrip t) ∧
    (pyIn "news.google.com" u = true →
      pyStrip (pyGet entry.title "") ≠ "" →
      entry.source = none →
      get_entry_source entry u fb =
        (sepCandidate (pyStrip (pyGet entry.title ""))).getD fb) := by
  refine ⟨?_, ?_, ?_, ?_⟩
  · intro h
    simp [get_entry_source, h]
  · intro h
    unfold get_entry_source
    split
    · rfl
    · rw [if_pos h]
  · intro t hu ht hsrc htne hstrip
    unfold get_entry_source
    rw [if_neg (by simp [hu]), if_neg ht, hsrc]
    have htr : truthy (some t) = true := by
      simp only [truthy, Bool.not_eq_true]
      cases ht2 : t.data.isEmpty
      · rfl
      · exact absurd (by cases t; simp_all [List.isEmpty_iff]) htne
    simp only [htr, if_true]
    rw [if_neg (by simpa [pyGet] using hstrip)]
    rfl
  · intro hu ht hsrc
    unfold get_entry_source
    rw [if_neg (by simp [hu]), if_neg ht, hsrc]

theorem c9_witness :
    get_entry_source entryPlainSep "https://other.com/f" "FB" = "FB" ∧
    get_entry_source entrySpaceTitle "https://news.google.com/rss" "FB" = "FB" ∧
    get_entry_source entryWithSourceField
      "https://news.google.com/rss" "FB" = "Reuters" ∧
    get_entry_source entryPlainSep
      "https://news.google.com/rss" "FB" =
        (sepCandidate (pyStrip (pyGet entryPlainSep.title ""))).getD "FB" :=
  ⟨(c9_get_entry_source_amended _ _ _).1 (by decide),
   (c9_get_entry_source_amended _ _ _).2.1 (by decide),
   by
     have h := (c9_get_entry_source_amended entryWithSourceField
       "https://news.google.com/rss" "FB").2.2.1 " Reuters "
       (by decide) (by decide) rfl (by decide) (by decide)
     simpa using h,
   (c9_get_entry_source_amended _ _ _).2.2.2 (by decide) (by decide) rfl⟩

/-! ## C2 -/

set_option maxRecDepth 40000 in
/-- C2: contrary to the truncation invariant, the tweet extractor clamps
`title` to 200 characters but stores `content` unclamped: a 501-character
tweet yields a record whose `content` has length 501 > 500.  (The other
extractors, e.g. the Google News loop, do clamp `content[:500]`.) -/
theorem c2_tweet_content_unbounded :
    (parse_tweet_entry (fun _ => true) "2026-10-12" longTweetEntry
      "elonmusk").map
        (fun i => (pyLen (pyGet i.content ""), pyLen (pyGet i.title ""))) =
      some (501, 200) := by
  decide


/-! ## Fetch client lemmas -/

theorem fetchRssGo_attempts_le (o : Nat → FetchOutcome) :
    ∀ fuel attempt, (fetchRssGo o attempt fuel).1 ≤ attempt + fuel - 1 := by
  intro fuel
  induction fuel with
  | zero => intro a; simp [fetchRssGo]
  | succ f ih =>
      intro a
      simp only [fetchRssGo]
      split
      · exact le_trans (ih (a + 1)) (by omega)
      · split
        · dsimp only; omega
        · split
          · exact le_trans (ih (a + 1)) (by omega)
          · dsimp only; omega

theorem pageAttempt_counter_le (o : Nat → String → PageOutcome) :
    ∀ fuel cnt cur html, (pageAttempt o cnt cur html fuel).1 ≤ cnt + fuel := by
  intro fuel
  induction fuel with
  | zero => intro cnt cur html; simp [pageAttempt]
  | succ f ih =>
      intro cnt cur html
      simp only [pageAttempt]
      split
      · dsimp only; omega
      · split
        · dsimp only; omega
        · split
          · dsimp only; omega
          · split
            · dsimp only; omega
            · split
              · split
                · dsimp only; omega
                · refine le_trans (ih (cnt + 1) _ _) ?_
                  omega
              · split
                · dsimp only; omega
                · refine le_trans (ih (cnt + 1) _ _) ?_
                  omega

theorem fetchPageGo_attempts_le (o : Nat → String → PageOutcome) (url : String) :
    ∀ fuel attempt cnt, (fetchPageGo o url attempt cnt fuel).1 ≤ attempt + fuel - 1 := by
  intro fuel
  induction fuel with
  | zero => intro a cnt; simp [fetchPageGo]
  | succ f ih =>
      intro a cnt
      simp only [fetchPageGo]
      split
      · omega
      · exact le_trans (ih (a + 1) _) (by omega)

/-! ## C6 -/

/-- C6 counterexample: the page variant has no rate-limit short-circuit — an
oracle answering HTTP 429 to every request makes `fetch_page` issue all 5
(default `WEB_REQUEST_RETRIES`) attempts, not exactly 1. -/
theorem c6_counterexample_page_429_retries :
    fetch_page oracle429 5 "https://e" = (5, 5, none) ∧
    (fetch_page oracle429 5 "https://e").1 ≠ 1 := by
  constructor
  · decide
  · decide

/-- C6 amended: the feed variant issues at most `maxRetries` attempts and
returns `None` after exactly 1 attempt when the first response is a 429; the
page variant treats every failure — 429 included — alike and issues at most
`retries` attempts. -/
theorem c6_retry_bounds_amended (ro : Nat → FetchOutcome)
    (po : Nat → String → PageOutcome) (m r : Nat) (u b : String) :
    (fetch_rss ro m).1 ≤ m ∧
    (ro 1 = .ok 429 b → 1 ≤ m → fetch_rss ro m = (1, none)) ∧
    (fetch_page po r u).1 ≤ r := by
  refine ⟨?_, ?_, ?_⟩
  · exact le_trans (fetchRssGo_attempts_le ro m 1) (by omega)
  · intro h hm
    obtain ⟨f, rfl⟩ : ∃ f, m = f + 1 := ⟨m - 1, by omega⟩
    simp [fetch_rss, fetchRssGo, h]
  · exact le_trans (fetchPageGo_attempts_le po u r 1 0) (by omega)

theorem c6_witness :
    (fetch_rss (fun _ => .ok 429 "limited") 3).1 ≤ 3 ∧
    fetch_rss (fun _ => .ok 429 "limited") 3 = (1, none) ∧
    (fetch_page oracle429 5 "https://e").1 ≤ 5 :=
  ⟨(c6_retry_bounds_amended (fun _ => .ok 429 "limited") oracle429 3 5
      "https://e" "limited").1,
   (c6_retry_bounds_amended (fun _ => .ok 429 "limited") oracle429 3 5
      "https://e" "limited").2.1 rfl (by decide),
   (c6_retry_bounds_amended (fun _ => .ok 429 "limited") oracle429 3 5
      "https://e" "limited").2.2⟩

/-! ## C7 -/

/-- C7: the meta-refresh resolution loop of one page-fetch attempt issues at
most `MAX_REDIRECT_HOPS + 1` requests (so it follows at most
`MAX_REDIRECT_HOPS` redirect hops), and when the fetched document's refresh
directive targets the serving URL itself the cycle guard stops the loop after
that single request, returning the document. -/
theorem c7_redirect_termination_cycle_guard :
    (∀ (o : Nat → String → PageOutcome) (cnt : Nat) (cur : String)
      (html : Option String),
      (pageAttempt o cnt cur html (MAX_REDIRECT_HOPS + 1)).1
        ≤ cnt + MAX_REDIRECT_HOPS + 1) ∧
    (∀ (o : Nat → String → PageOutcome) (cnt : Nat) (cur : String)
      (fuel s : Nat) (u b : String),
      o cnt cur = .ok s u b → s < 400 → b ≠ "" → ¬ pyLen b < 100 →
      extract_meta_refresh_url b u = some u → pyStartsWith "/" u = false →
      pageAttempt o cnt cur none (fuel + 1) = (cnt + 1, .ok (some b))) := by
  constructor
  · intro o cnt cur html
    exact le_trans (pageAttempt_counter_le o (MAX_REDIRECT_HOPS + 1) cnt cur html)
      (by omega)
  · intro o cnt cur fuel s u b h h400 hb hlen hx hsl
    simp only [pageAttempt, h]
    rw [if_neg (by omega)]
    rw [if_neg (by simp [hb, hlen])]
    simp only [hx, hsl]
    simp

theorem c7_witness :
    (pageAttempt selfRefreshOracle 0 "https://x/a" none
      (MAX_REDIRECT_HOPS + 1)).1 ≤ 0 + MAX_REDIRECT_HOPS + 1 ∧
    pageAttempt selfRefreshOracle 0 "https://x/a" none (MAX_REDIRECT_HOPS + 1)
      = (1, .ok (some selfRefreshHtml)) :=
  ⟨c7_redirect_termination_cycle_guard.1 selfRefreshOracle 0 "https://x/a" none,
   c7_redirect_termination_cycle_guard.2 selfRefreshOracle 0 "https://x/a"
     MAX_REDIRECT_HOPS 200 "https://x/a" selfRefreshHtml rfl (by omega)
     (by decide) (by decide) (by decide) (by decide)⟩


/-! ## Summarizer lemmas -/

theorem mapWithIdx_length (f : Nat → α → β) :
    ∀ (l : List α) (i : Nat), (mapWithIdx f i l).length = l.length := by
  intro l
  induction l with
  | nil => intro i; rfl
  | cons x xs ih => intro i; simp [mapWithIdx, ih]

theorem mapWithIdx_getElem? (f : Nat → α → β) :
    ∀ (l : List α) (i j : Nat),
      (mapWithIdx f i l)[j]? = (l[j]?).map (f (i + j)) := by
  intro l
  induction l with
  | nil => intro i j; simp [mapWithIdx]
  | cons x xs ih =>
      intro i j
      cases j with
      | zero => simp [mapWithIdx]
      | succ j =>
          simp only [mapWithIdx, List.getElem?_cons_succ, ih (i + 1) j]
          rw [Nat.add_comm j 1, ← Nat.add_assoc]

theorem summarize_one_chunk_length (raw : Option String) (chunk : List Item) :
    (summarize_one_chunk raw chunk).length = chunk.length := by
  cases raw with
  | none => simp [summarize_one_chunk]
  | some r =>
      simp only [summarize_one_chunk]
      split
      · rw [mapWithIdx_length]
        simp
      · simp

theorem unifiedSummaries_length (capi : Nat → Option String) :
    ∀ (fuel : Nat) (ci : Nat) (xs : List Item), xs.length ≤ fuel →
      (unifiedSummaries capi ci fuel xs).length = xs.length := by
  intro fuel
  induction fuel with
  | zero =>
      intro ci xs h
      simp only [unifiedSummaries, List.length_nil]
      omega
  | succ f ih =>
      intro ci xs h
      cases xs with
      | nil => simp [unifiedSummaries]
      | cons x t =>
          simp only [unifiedSummaries, List.length_append,
            summarize_one_chunk_length]
          rw [ih (ci + 1) ((x :: t).drop BATCH_CHUNK_SIZE)
            (by simp only [List.length_drop, BATCH_CHUNK_SIZE]
                simp only [List.length_cons] at h ⊢
                omega)]
          simp only [List.length_take, List.length_drop, BATCH_CHUNK_SIZE,
            List.length_cons]
          omega

theorem swgm_ne_empty (r : Option String) (s : String)
    (h : summarize_with_github_models r = some s) : s ≠ "" := by
  cases r with
  | none => simp [summarize_with_github_models] at h
  | some v =>
      by_cases he : pyStrip v = ""
      · simp [summarize_with_github_models, he] at h
      · simp only [summarize_with_github_models, if_neg he] at h
        have h2 := Option.some.inj h
        rw [← h2]
        exact he

theorem string_eq_empty_iff (s : String) : s = "" ↔ s.data = [] := by
  cases s with
  | mk l =>
      constructor
      · intro h
        exact congrArg String.data h
      · intro h
        exact congrArg String.mk h

theorem fallbackTrunc_ne_empty (item : Item) (h : fallbackText item ≠ "") :
    fallbackTrunc item ≠ "" := by
  intro hc
  apply h
  have hd := congrArg String.data hc
  have happ : (pySlice 200 (fallbackText item)
      ++ (if pyLen (fallbackText item) > 200 then "..." else "")).data
      = (pySlice 200 (fallbackText item)).data
        ++ (if pyLen (fallbackText item) > 200 then "..." else "").data := rfl
  rw [fallbackTrunc, happ] at hd
  have htake : (fallbackText item).data.take 200 = [] :=
    (List.append_eq_nil.mp hd).1
  rw [string_eq_empty_iff]
  rcases List.take_eq_nil_iff.mp htake with h2 | h2
  · exact absurd h2 (by omega)
  · exact h2

/-- The element the main branch of `summarize_batch_unified` writes at a
given index: the recovered summary if truthy, else the truncation
fallback. -/
theorem unified_slot_spec (all : List (Option String)) (i : Nat) (item : Item) :
    ∃ s : String,
      (match (match all[i]? with
              | some (some v) => if v = "" then none else some v
              | _ => none : Option String) with
       | some v => { item with summary := some v }
       | none => { item with summary := some (fallbackTrunc item) }) =
        { item with summary := some s } ∧
      (fallbackText item ≠ "" → s ≠ "") := by
  rcases hslot : all[i]? with _ | sl
  · exact ⟨fallbackTrunc item, rfl, fallbackTrunc_ne_empty item⟩
  · rcases sl with _ | v
    · exact ⟨fallbackTrunc item, rfl, fallbackTrunc_ne_empty item⟩
    · by_cases hv : v = ""
      · refine ⟨fallbackTrunc item, ?_, fallbackTrunc_ne_empty item⟩
        simp [hv]
      · refine ⟨v, ?_, fun _ => hv⟩
        simp [hv]

theorem summarize_item_spec (resp : Option String) (item : Item) :
    ∃ s : String, summarize_item resp item = { item with summary := some s } ∧
      (fallbackText item ≠ "" → s ≠ "") := by
  unfold summarize_item
  cases hr : summarize_with_github_models resp with
  | some s => exact ⟨s, rfl, fun _ => swgm_ne_empty resp s hr⟩
  | none => exact ⟨fallbackTrunc item, rfl, fallbackTrunc_ne_empty item⟩

/-! ## C1 -/

/-- C1 counterexample: a record whose `content` key holds the empty string
gets the empty truncation fallback as its summary when generation fails, so
the output's `summary`, while populated, is empty. -/
theorem c1_counterexample_empty_summary :
    (summarize_batch_unified (fun _ => none) (fun _ => none)
      [emptyContentItem]).map (fun i => i.summary) = [some ""] := by
  decide

/-- C1 amended: `summarize_batch_unified` returns a sequence of the same
length as its input, never removing a record: position `idx` of the output is
exactly the input record with a `summary` attached, and that summary is
non-empty whenever the record's fallback text (`content`, or `title` when the
`content` key is absent) is non-empty — a record with empty fallback text can
receive an empty summary. -/
theorem c1_summarize_unified_amended (capi iapi : Nat → Option String)
    (items : List Item) (idx : Nat) (h : idx < items.length) :
    (summarize_batch_unified capi iapi items).length = items.length ∧
    ∃ s : String,
      (summarize_batch_unified capi iapi items)[idx]? =
        some { items[idx] with summary := some s } ∧
      (fallbackText items[idx] ≠ "" → s ≠ "") := by
  have hne : items.isEmpty = false := by
    cases items with
    | nil => simp at h
    | cons x t => rfl
  simp only [summarize_batch_unified, hne, Bool.false_eq_true, if_false]
  split
  · constructor
    · simp only [summarize_batch, mapWithIdx_length]
    · obtain ⟨s, hs, hcond⟩ := summarize_item_spec (iapi idx) items[idx]
      refine ⟨s, ?_, hcond⟩
      simp only [summarize_batch, mapWithIdx_getElem?, Nat.zero_add]
      rw [List.getElem?_eq_getElem h]
      exact congrArg some hs
  · constructor
    · rw [mapWithIdx_length]
    · obtain ⟨s, hs, hcond⟩ := unified_slot_spec
        (unifiedSummaries capi 0 items.length items) idx items[idx]
      refine ⟨s, ?_, hcond⟩
      rw [mapWithIdx_getElem?, Nat.zero_add, List.getElem?_eq_getElem h]
      exact congrArg some hs

theorem c1_witness :
    (summarize_batch_unified (fun _ => none) (fun _ => none)
      [goodContentItem]).length = 1 ∧
    ∃ s : String,
      (summarize_batch_unified (fun _ => none) (fun _ => none)
        [goodContentItem])[0]? =
          some { goodContentItem with summary := some s } ∧
      (fallbackText goodContentItem ≠ "" → s ≠ "") :=
  c1_summarize_unified_amended (fun _ => none) (fun _ => none)
    [goodContentItem] 0 (by decide)

end DGIE
